import Mathlib

/-!
Verification of the canvas-cli submission pipeline against its specification.

The Rust sources are shallowly embedded: network requests become explicit
oracle parameters of type `Except Err _`, Rust `unwrap` panics become
`Err.panicked` errors, `HashMap` becomes an association list with `List.lookup`,
and the stable `sort_by` becomes `List.insertionSort` over the relation
induced by the comparator (stable sorts with the same comparator agree on all
inputs, so this is the unique faithful model of a stable comparator sort).

File map:
- `Submit` namespace: src/submit.rs (data model, metadata merge, sorting,
  upload pipeline, finalization).
- `Lib` namespace: src/lib.rs (download-flow `Course`, its sort and display
  color fallback).
- `Download` namespace: src/download.rs (course id / base url resolution).
- `Fuzzy` namespace: model of the external fuzzy matcher used by the
  interactive selector.
-/

/-- UTC timestamps (chrono `DateTime<Utc>`), modelled by their linear order
as integers. -/
abbrev DateTime := Int

/-- Failure modes of the pipeline. Rust `?`-propagated reqwest errors become
`network`; `error_for_status` failures become `status`; `?`-propagated JSON
decode failures become `malformedBody`; `unwrap` panics become `panicked`. -/
inductive Err where
  | network
  | status
  | malformedBody
  | panicked
  deriving DecidableEq

/-- Boolean test for the error case of `Except`. -/
def isErr : Except Err α → Bool
  | .error _ => true
  | .ok _ => false

/-- Rust `Option::unwrap`: a missing value is a panic. -/
def optToExcept : Option α → Except Err α
  | some a => .ok a
  | none => .error .panicked

/-- Sequential effectful map over a list in the `Except` monad: the model of a
Rust iterator `map` + `collect`, which evaluates elements left to right and
propagates the first failure. -/
def mapME (f : α → Except Err β) : List α → Except Err (List β)
  | [] => .ok []
  | x :: xs => do
    let y ← f x
    let ys ← mapME f xs
    .ok (y :: ys)

/-- Numeric value of a digit run. -/
def digitsVal (l : List Char) : Nat :=
  l.foldl (fun n c => n * 10 + (c.toNat - 48)) 0

/-- Rust `str::parse::<u32>` restricted to plain digit strings: the parse
succeeds on a non-empty all-digit string whose value fits in 32 bits. -/
def parseNat32 (s : String) : Option Nat :=
  match s.data with
  | [] => none
  | cs =>
    if cs.all (·.isDigit) then
      if digitsVal cs < 2 ^ 32 then some (digitsVal cs) else none
    else none

/-- The strict lexicographic order on strings used by the standard `Ord`
instance, the model of the Rust `String` ordering. -/
def strLt : String → String → Prop := @LT.lt String String.instLT

namespace Submit

/-- The accepted submission type enum from the GraphQL schema; the code only
distinguishes `online_upload` from everything else. -/
inductive SubmissionType where
  | online_upload
  | online_text_entry
  | online_url
  | on_paper
  | media_recording
  | other
  deriving DecidableEq

/-- One node of `submissions_connection.nodes` in the GraphQL response. -/
structure SubmissionNode where
  submission_status : Option String
  deriving DecidableEq

/-- The `submissions_connection` object: `nodes` is itself optional. -/
structure SubmissionsConnection where
  nodes : Option (List (Option SubmissionNode))
  deriving DecidableEq

/-- One node of `assignments_connection.nodes` in the GraphQL response. -/
structure AssignmentNode where
  name : Option String
  id : String
  due_at : Option DateTime
  submissions_connection : Option SubmissionsConnection
  submission_types : Option (List SubmissionType)
  deriving DecidableEq

/-- The `assignments_connection` object of a course. -/
structure AssignmentsConnection where
  nodes : Option (List (Option AssignmentNode))
  deriving DecidableEq

/-- One course of `all_courses` in the GraphQL response. -/
structure CourseNode where
  name : String
  id : String
  asset_string : Option String
  assignments_connection : Option AssignmentsConnection
  deriving DecidableEq

/-- The `data` payload of the GraphQL query response. -/
structure QueryData where
  all_courses : Option (List CourseNode)
  deriving DecidableEq

/-- One element of the favorites REST response array. -/
structure FavoritesResponse where
  id : Nat
  name : String
  deriving DecidableEq

/-- The colors REST response; `custom_colors` is a map from asset key to CSS
color, modelled as an association list. -/
structure ColorsResponse where
  custom_colors : List (String × String)
  deriving DecidableEq

/-- The merged course value built during aggregation (submit.rs `Course`). -/
structure Course where
  name : String
  id : String
  favorite : Bool
  css_color : String
  deriving DecidableEq

/-- The merged assignment value built during aggregation
(submit.rs `Assignment`). -/
structure Assignment where
  name : String
  id : String
  due_at : Option DateTime
  course : Course
  submitted : Bool
  submission_types : List SubmissionType
  deriving DecidableEq

/-- Lines 206-220 of submit.rs: the submitted flag is computed from the head
of the submissions list alone; an empty list means unsubmitted, and a present
head has its outer option, inner option and status unwrapped. -/
def computeSubmitted (nodes : List (Option SubmissionNode)) : Except Err Bool :=
  match nodes with
  | [] => .ok false
  | first :: _ => do
    let node ← optToExcept first
    let status ← optToExcept node.submission_status
    .ok (!status.isEmpty)

/-- Lines 234-236 of submit.rs: the favorite flag is an id membership test
against the favorites list; the closure parses the course id with `unwrap`,
which runs (and can panic) only when the favorites list is non-empty. -/
def favoriteFlag (favorites : List FavoritesResponse) (courseId : String) :
    Except Err Bool :=
  match favorites with
  | [] => .ok false
  | _ :: _ =>
    match parseNat32 courseId with
    | some n => .ok (favorites.any (fun f => f.id == n))
    | none => .error .panicked

/-- Lines 195-244 of submit.rs: build one merged `Assignment` from one node of
a course, unwrapping every optional field and looking the course color up in
the color map with `unwrap`. -/
def processAssignment (colors : ColorsResponse)
    (favorites : List FavoritesResponse) (course : CourseNode)
    (assignment : Option AssignmentNode) : Except Err Assignment := do
  let props ← optToExcept assignment
  let subsConn ← optToExcept props.submissions_connection
  let subsNodes ← optToExcept subsConn.nodes
  let submitted ← computeSubmitted subsNodes
  let types ← optToExcept props.submission_types
  let name ← optToExcept props.name
  let favorite ← favoriteFlag favorites course.id
  let assetKey ← optToExcept course.asset_string
  let cssColor ← optToExcept (colors.custom_colors.lookup assetKey)
  .ok { name := name, id := props.id, due_at := props.due_at,
        submitted := submitted, submission_types := types,
        course := { name := course.name, id := course.id,
                    favorite := favorite, css_color := cssColor } }

/-- Lines 186-194 of submit.rs: unwrap a course node connection and map the
assignment builder over its nodes. -/
def processCourse (colors : ColorsResponse)
    (favorites : List FavoritesResponse) (course : CourseNode) :
    Except Err (List Assignment) := do
  let conn ← optToExcept course.assignments_connection
  let nodes ← optToExcept conn.nodes
  mapME (processAssignment colors favorites course) nodes

/-- Lines 182-247 of submit.rs: flat-map the GraphQL data into one long
assignment list; a missing `all_courses` iterates zero times. -/
def mergeAssignments (colors : ColorsResponse)
    (favorites : List FavoritesResponse) (data : QueryData) :
    Except Err (List Assignment) :=
  match data.all_courses with
  | none => .ok []
  | some courses => do
    let ls ← mapME (processCourse colors favorites) courses
    .ok ls.flatten

/-- Lines 150-247 of submit.rs: the three concurrent source queries are joined
with `?` or `unwrap` (on the optional GraphQL `data`) before the merge runs;
any failure aborts the whole aggregation. -/
def aggregate (colorsResp : Except Err ColorsResponse)
    (favoritesResp : Except Err (List FavoritesResponse))
    (graphResp : Except Err (Option QueryData)) :
    Except Err (List Assignment) := do
  let colors ← colorsResp
  let favorites ← favoritesResp
  let dataOpt ← graphResp
  let data ← optToExcept dataOpt
  mergeAssignments colors favorites data

end Submit

open Batteries (OrientedCmp TransCmp)

/-- The non-strict relation induced by a three-way comparator; Rust
`slice::sort_by(cmp)` produces a list sorted with respect to this relation. -/
def leIndByCmp (cmp : α → α → Ordering) (a b : α) : Prop := cmp a b ≠ .gt

instance (cmp : α → α → Ordering) : DecidableRel (leIndByCmp cmp) :=
  fun a b => inferInstanceAs (Decidable (cmp a b ≠ .gt))

instance (cmp : α → α → Ordering) [TransCmp cmp] : IsTrans α (leIndByCmp cmp) :=
  ⟨fun _ _ _ => TransCmp.le_trans⟩

instance (cmp : α → α → Ordering) [OrientedCmp cmp] : IsTotal α (leIndByCmp cmp) := by
  constructor
  intro a b
  by_cases h : cmp a b = .gt
  · have hba : cmp b a = .lt := OrientedCmp.cmp_eq_gt.mp h
    exact Or.inr (by simp [leIndByCmp, hba])
  · exact Or.inl h

/-- Model of Rust `slice::sort_by(cmp)`: a stable sort with respect to
`leIndByCmp cmp`. Any two stable sorts agree on every input, so insertion sort is
the faithful embedding of the stable standard-library sort. -/
def sortByCmp (cmp : α → α → Ordering) [DecidableEq α] (l : List α) : List α :=
  List.insertionSort (leIndByCmp cmp) l

instance [Ord α] [Batteries.TransOrd α] : Batteries.TransOrd (Option α) where
  symm x y := by
    cases x with
    | none => cases y <;> rfl
    | some a =>
      cases y with
      | none => rfl
      | some b =>
        have h : (compare a b).swap = compare b a := OrientedCmp.symm a b
        exact h
  le_trans {x y z} h1 h2 := by
    cases x with
    | none => cases z <;> exact fun h => nomatch h
    | some a =>
      cases y with
      | none => exact absurd rfl h1
      | some b =>
        cases z with
        | none => exact absurd rfl h2
        | some c =>
          have h1' : compare a b ≠ .gt := h1
          have h2' : compare b c ≠ .gt := h2
          have h3 : compare a c ≠ .gt := TransCmp.le_trans h1' h2'
          exact h3

namespace Submit

/-- Line 257 of submit.rs: the course selector comparator
`b.favorite.cmp(&a.favorite).then(a.name.cmp(&b.name))`. -/
def courseCmp (a b : Course) : Ordering :=
  (compare b.favorite a.favorite).then (compare a.name b.name)

instance : TransCmp courseCmp :=
  inferInstanceAs (TransCmp
    (compareLex (flip (compareOn (fun c : Course => c.favorite)))
      (compareOn (fun c : Course => c.name))))

/-- Lines 250-257 of submit.rs: the course candidate list is the set of
courses of the merged assignments (`HashSet` deduplication by full value
equality) sorted with `courseCmp`. -/
def coursesOf (assignments : List Assignment) : List Course :=
  sortByCmp courseCmp (assignments.map (·.course)).dedup

/-- Line 270 of submit.rs: the assignment selector comparator
`a.submitted.cmp(&b.submitted).then(a.due_at.cmp(&b.due_at))`. -/
def assignmentCmp (a b : Assignment) : Ordering :=
  (compare a.submitted b.submitted).then (compare a.due_at b.due_at)

instance : TransCmp assignmentCmp :=
  inferInstanceAs (TransCmp
    (compareLex (compareOn (fun a : Assignment => a.submitted))
      (compareOn (fun a : Assignment => a.due_at))))

/-- Line 264 of submit.rs: only `online_upload` is an accepted type. -/
def isOnlineUpload : SubmissionType → Bool
  | .online_upload => true
  | _ => false

/-- Lines 261-269 of submit.rs: retain upload-eligible assignments of the
selected course. -/
def eligibleOf (assignments : List Assignment) (course : Course) :
    List Assignment :=
  (assignments.filter (fun a => a.submission_types.any isOnlineUpload)).filter
    (fun a => a.course == course)

/-- Lines 261-276 of submit.rs: the assignment candidate list presented by the
selector, filtered then sorted. -/
def eligibleAssignments (assignments : List Assignment) (course : Course) :
    List Assignment :=
  sortByCmp assignmentCmp (eligibleOf assignments course)

end Submit

namespace Lib

/-- src/lib.rs `Course` for the download flow: numeric id, optional color and
a creation timestamp used for tie-breaking. -/
structure Course where
  name : String
  id : Nat
  is_favorite : Bool
  css_color : Option String
  created_at : DateTime
  deriving DecidableEq

/-- Lines 132-136 of lib.rs: the download-flow course comparator
`b.is_favorite.cmp(&a.is_favorite).then(a.created_at.cmp(&b.created_at))`. -/
def libCourseCmp (a b : Course) : Ordering :=
  (compare b.is_favorite a.is_favorite).then (compare a.created_at b.created_at)

instance : TransCmp libCourseCmp :=
  inferInstanceAs (TransCmp
    (compareLex (flip (compareOn (fun c : Course => c.is_favorite)))
      (compareOn (fun c : Course => c.created_at))))

/-- Lines 120-137 of lib.rs: the sorted download-flow course list. -/
def sortLibCourses (l : List Course) : List Course :=
  sortByCmp libCourseCmp l

/-- Lines 33-37 of lib.rs: the display color falls back to black when the
course has no entry in the color map (`unwrap_or("#000000")`). -/
def displayColor (c : Course) : String := c.css_color.getD "#000000"

end Lib

namespace Submit

/-- Stage-1 response body of the upload protocol. -/
structure UploadBucket where
  upload_url : String
  upload_params : List (String × String)
  deriving DecidableEq

/-- Stage-3 response body: the authoritative uploaded-file record. -/
structure UploadResponse where
  id : Nat
  url : String
  content_type : Option String
  display_name : Option String
  size : Option Nat
  deriving DecidableEq

/-- Network oracle for one file pipeline. Each stage result is the transport
outcome (`Except`) carrying the payload the code then unwraps: the parsed
bucket for stage 1, the `Location` header for stage 2, the parsed uploaded
file for stage 3. Stage 2 is a function of the bucket returned by stage 1 and
stage 3 of the location returned by stage 2, reflecting that each request is
built from the previous response. -/
structure FileNet where
  stage1 : Except Err (Option UploadBucket)
  stage2 : UploadBucket → Except Err (Option String)
  stage3 : String → Except Err (Option UploadResponse)

/-- Lines 325-414 of submit.rs (`upload_file`): request the bucket and unwrap
its parse, POST the multipart payload and unwrap the `Location` header, POST
to the location and unwrap the parsed `UploadResponse`. -/
def upload_file (net : FileNet) : Except Err UploadResponse := do
  let bucketOpt ← net.stage1
  let bucket ← optToExcept bucketOpt
  let locOpt ← net.stage2 bucket
  let location ← optToExcept locOpt
  let respOpt ← net.stage3 location
  optToExcept respOpt

/-- The final submissions POST: its URL and its query parameter list. A value
of this type is produced exactly when the code reaches the `client.post`
call on line 305 of submit.rs. -/
structure FinalizeRequest where
  url : String
  queryParams : List (String × String)
  deriving DecidableEq

/-- Lines 292-300 of submit.rs: the `join_all` results are mapped with
`f.unwrap()`, so the first (leftmost) failed upload aborts before the
finalize request is built; its error is propagated. -/
def collectUploaded :
    List (Except Err UploadResponse) → Except Err (List UploadResponse)
  | [] => .ok []
  | .error e :: _ => .error e
  | .ok r :: rest => (collectUploaded rest).map (r :: ·)

/-- Lines 280-314 of submit.rs: run one pipeline per file (in input order, as
`join_all` preserves it), join, then build one `submission[file_ids][]`
parameter per uploaded file plus the single submission-type parameter, and
address the request to the selected course and assignment. -/
def submitTail (base : String) (course : Course) (assignment : Assignment)
    (files : List String) (net : String → FileNet) :
    Except Err FinalizeRequest := do
  let uploaded ← collectUploaded (files.map (fun f => upload_file (net f)))
  let params := uploaded.map
      (fun f => ("submission[file_ids][]", toString f.id)) ++
    [("submission[submission_type]", "online_upload")]
  .ok { url := base ++ "api/v1/courses/" ++ course.id ++ "/assignments/" ++
          assignment.id ++ "/submissions",
        queryParams := params }

end Submit

namespace Download

/-- Index of the first suffix of `l` that begins with `pat`. -/
def findFrom (pat : List Char) : List Char → Option Nat
  | [] => if pat.isEmpty then some 0 else none
  | c :: rest =>
    if pat.isPrefixOf (c :: rest) then some 0
    else (findFrom pat rest).map (· + 1)

/-- True when `l` begins with `/courses/` followed by at least one digit. -/
def coursesHere (l : List Char) : Bool :=
  "/courses/".data.isPrefixOf l &&
    match l.drop 9 with
    | [] => false
    | c :: _ => c.isDigit

/-- Index of the last occurrence of `/courses/<digit>` in `l`. -/
def findLastCourses : List Char → Option Nat
  | [] => none
  | c :: rest =>
    match findLastCourses rest with
    | some i => some (i + 1)
    | none => if coursesHere (c :: rest) then some 0 else none

/-- Lines 83-87 of download.rs, the regex `(https://.+)/courses/(\d+)`: the
match anchors at the first `https://`, the greedy first group extends to the
last `/courses/` that is followed by a digit (at least one character after
the scheme), and the second group is the maximal digit run. Returns the first
capture (the base URL) and the parsed course id; `None` models the
`captures(..).unwrap()` panic when the regex does not match. -/
def parseCourseUrl (s : String) : Option (String × Nat) :=
  let cs := s.data
  match findFrom "https://".data cs with
  | none => none
  | some start =>
    match findLastCourses cs with
    | none => none
    | some i =>
      if start + 9 ≤ i then
        let digits := (cs.drop (i + 9)).takeWhile (·.isDigit)
        some (⟨(cs.drop start).take (i - start)⟩, digitsVal digits)
      else none

/-- The identifier sources consumed by lines 75-95 of download.rs:
the `--course` flag, the `--url` flag, the `CANVAS_URL` and
`CANVAS_COURSE_ID` environment variables, and the configured base URL. -/
structure ResolveInput where
  flagCourse : Option Nat
  flagUrl : Option String
  envUrl : Option String
  envCourseId : Option String
  baseUrl : String

/-- Lines 76-88 of download.rs: prefer `CANVAS_URL` over the `--url` flag as
the URL to parse; when a URL is present, its parse overwrites both the base
URL and the explicit course flag (regex or id-parse failure is an `unwrap`
panic); with no URL, the configured base URL and the explicit flag stand. -/
def urlStage (inp : ResolveInput) : Except Err (String × Option Nat) :=
  match (match inp.envUrl with | some u => some u | none => inp.flagUrl) with
  | some u =>
    match parseCourseUrl u with
    | some (b, n) =>
      if n < 2 ^ 32 then .ok (b, some n) else .error .panicked
    | none => .error .panicked
  | none => .ok (inp.baseUrl, inp.flagCourse)

/-- Lines 90-92 of download.rs: `CANVAS_COURSE_ID`, when set, overwrites the
course id resolved so far; its parse failure is an `unwrap` panic. -/
def envIdStage (inp : ResolveInput) (courseId1 : Option Nat) :
    Except Err (Option Nat) :=
  match inp.envCourseId with
  | some s =>
    match parseNat32 s with
    | some n => .ok (some n)
    | none => .error .panicked
  | none => .ok courseId1

/-- Lines 75-95 of download.rs composed in program order: flag, then URL
overwrite, then environment course id overwrite. -/
def resolveCourse (inp : ResolveInput) : Except Err (String × Option Nat) :=
  urlStage inp >>= fun step1 =>
    envIdStage inp step1.2 >>= fun courseId2 =>
      pure (step1.1, courseId2)

end Download

namespace Fuzzy

/-- Modelled from the spec: the interactive filter of submit.rs lines 271-276
calls `SkimMatcherV2::fuzzy_match`, whose implementation lives in the external
`fuzzy_matcher` crate and is not part of this repository. The spec describes
it as case-insensitive, order-preserving fuzzy (subsequence) matching, not
exact substring matching. `isSubseqOf p t` decides whether `p` is an
order-preserving subsequence of `t`. -/
def isSubseqOf : List Char → List Char → Bool
  | [], _ => true
  | _ :: _, [] => false
  | a :: as, b :: bs =>
    if a = b then isSubseqOf as bs else isSubseqOf (a :: as) bs

/-- Modelled from the spec: a candidate label matches a query when the
lowercased query is an order-preserving subsequence of the lowercased label
(see `isSubseqOf`). -/
def fuzzy_match (choice pattern : String) : Bool :=
  isSubseqOf (pattern.data.map Char.toLower) (choice.data.map Char.toLower)

end Fuzzy

namespace Example

/-- A submissions list whose first record has an empty status and whose second
record has a non-empty one. -/
def subsTwo : List (Option Submit.SubmissionNode) :=
  [some ⟨some ""⟩, some ⟨some "graded"⟩]

/-- An assignment node carrying `subsTwo` as its submission records. -/
def asgNodeTwo : Submit.AssignmentNode :=
  { name := some "HW", id := "a1", due_at := none,
    submissions_connection := some ⟨some subsTwo⟩,
    submission_types := some [.online_upload] }

/-- A course node with asset key `course_42` carrying `asgNodeTwo`. -/
def courseNodeTwo : Submit.CourseNode :=
  { name := "N", id := "42", asset_string := some "course_42",
    assignments_connection := some ⟨some [some asgNodeTwo]⟩ }

/-- The merged assignment the aggregation produces from `courseNodeTwo` when
the color map binds `course_42` and the favorites list is empty. -/
def mergedTwo : Submit.Assignment :=
  { name := "HW", id := "a1", due_at := none, submitted := false,
    submission_types := [.online_upload],
    course := { name := "N", id := "42", favorite := false,
                css_color := "#abcdef" } }

/-- An assignment node with no submission records. -/
def asgNodePlain : Submit.AssignmentNode :=
  { name := some "HW", id := "a1", due_at := none,
    submissions_connection := some ⟨some []⟩,
    submission_types := some [.online_upload] }

/-- A course node with asset key `course_42` carrying `asgNodePlain`. -/
def courseNodePlain : Submit.CourseNode :=
  { name := "N", id := "42", asset_string := some "course_42",
    assignments_connection := some ⟨some [some asgNodePlain]⟩ }

/-- A color map that binds only `course_7`, leaving `course_42` unmapped. -/
def colorsOther : Submit.ColorsResponse := ⟨[("course_7", "#abcdef")]⟩

/-- A throwaway course for sort examples. -/
def cPlain : Submit.Course := ⟨"c", "1", false, "#fff"⟩

/-- An unsubmitted assignment with a due date. -/
def aDated : Submit.Assignment :=
  ⟨"dated", "a1", some 5, cPlain, false, [.online_upload]⟩

/-- An unsubmitted assignment without a due date. -/
def aUndated : Submit.Assignment :=
  ⟨"undated", "a2", none, cPlain, false, [.online_upload]⟩

/-- A second unsubmitted assignment without a due date, comparing equal to
`aUndated` under the assignment comparator. -/
def aUndated2 : Submit.Assignment :=
  ⟨"undated2", "a3", none, cPlain, false, [.online_upload]⟩

/-- Two download-flow courses comparing equal under the course comparator
(same favorite flag and creation time). -/
def lc1 : Lib.Course := ⟨"alpha", 1, false, none, 100⟩

/-- See `lc1`. -/
def lc2 : Lib.Course := ⟨"beta", 2, false, some "#fff", 100⟩

/-- A network oracle whose three stages all succeed. -/
def okNet : Submit.FileNet :=
  { stage1 := .ok (some ⟨"https://up/1", [("k", "v")]⟩),
    stage2 := fun _ => .ok (some "https://confirm/1"),
    stage3 := fun _ => .ok (some ⟨77, "https://f/77", none, some "a.txt", some 10⟩) }

/-- A network oracle whose stage-2 response carries no `Location` header, the
observable shape of an error-status response to the multipart POST. -/
def badNet : Submit.FileNet :=
  { stage1 := .ok (some ⟨"https://up/2", []⟩),
    stage2 := fun _ => .ok none,
    stage3 := fun _ => .ok none }

/-- A per-file oracle where only `b.txt` fails (at stage 2). -/
def mixedNet : String → Submit.FileNet :=
  fun f => if f = "b.txt" then badNet else okNet

/-- A per-file oracle where every file succeeds. -/
def allOkNet : String → Submit.FileNet := fun _ => okNet

/-- The uploaded-file record produced by `okNet`. -/
def okUpload : Submit.UploadResponse :=
  ⟨77, "https://f/77", none, some "a.txt", some 10⟩

/-- A selected course for upload examples. -/
def courseSel : Submit.Course := ⟨"c", "10", true, "#fff"⟩

/-- A selected assignment for upload examples. -/
def asgSel : Submit.Assignment :=
  ⟨"A", "20", none, courseSel, false, [.online_upload]⟩

/-- The finalize request produced for two files under `allOkNet`. -/
def reqTwo : Submit.FinalizeRequest :=
  ⟨"https://base/api/v1/courses/10/assignments/20/submissions",
   [("submission[file_ids][]", "77"), ("submission[file_ids][]", "77"),
    ("submission[submission_type]", "online_upload")]⟩

/-- An input where the explicit flag, the environment override and the
parseable URL disagree on the course id (1, 2 and 3 respectively). -/
def rinpAll : Download.ResolveInput :=
  { flagCourse := some 1, flagUrl := none,
    envUrl := some "https://h.edu/courses/3", envCourseId := some "2",
    baseUrl := "https://cfg/" }

/-- `rinpAll` with the environment course id removed. -/
def rinpNoEnvId : Download.ResolveInput :=
  { flagCourse := some 1, flagUrl := none,
    envUrl := some "https://h.edu/courses/3", envCourseId := none,
    baseUrl := "https://cfg/" }

/-- An input with only the explicit flag set. -/
def rinpFlagOnly : Download.ResolveInput :=
  { flagCourse := some 1, flagUrl := none, envUrl := none, envCourseId := none,
    baseUrl := "https://cfg/" }

end Example

theorem optToExcept_eq_ok {o : Option α} {v : α} :
    optToExcept o = .ok v ↔ o = some v := by
  cases o <;> simp [optToExcept]

theorem exceptBind_eq_ok {x : Except Err α} {f : α → Except Err β} {b : β} :
    (x >>= f) = .ok b ↔ ∃ a, x = .ok a ∧ f a = .ok b := by
  cases x <;> simp [Bind.bind, Except.bind]

theorem mapME_eq_ok {f : α → Except Err β} {l : List α} {ys : List β}
    (h : mapME f l = .ok ys) : ∀ x ∈ l, ∃ y, f x = .ok y := by
  induction l generalizing ys with
  | nil => intro x hx; cases hx
  | cons a as ih =>
    intro x hx
    rw [mapME, exceptBind_eq_ok] at h
    obtain ⟨y, hy, h⟩ := h
    rw [exceptBind_eq_ok] at h
    obtain ⟨ys', hys', -⟩ := h
    rcases List.mem_cons.mp hx with rfl | hmem
    · exact ⟨y, hy⟩
    · exact ih hys' x hmem

theorem mapME_error_of_mem {f : α → Except Err β} {l : List α} {x : α}
    (hx : x ∈ l) (hfail : ∀ y, f x ≠ .ok y) : ∃ e, mapME f l = .error e := by
  induction l with
  | nil => cases hx
  | cons a as ih =>
    rcases List.mem_cons.mp hx with rfl | hmem
    · rw [mapME]
      cases hfa : f x with
      | error e => exact ⟨e, by simp [Bind.bind, Except.bind, hfa]⟩
      | ok y => exact absurd hfa (hfail y)
    · rw [mapME]
      cases hfa : f a with
      | error e => exact ⟨e, by simp [Bind.bind, Except.bind, hfa]⟩
      | ok y =>
        obtain ⟨e, he⟩ := ih hmem
        exact ⟨e, by simp [Bind.bind, Except.bind, hfa, he]⟩

/-- C3: metadata aggregation is all-or-nothing: if any one of the three source
queries (color mapping, favorites list, graph assignment query) fails, the
whole aggregation aborts with an error and no merged assignment sequence, not
even a partial one, is produced. -/
theorem aggregation_all_or_nothing
    (rc : Except Err Submit.ColorsResponse)
    (rf : Except Err (List Submit.FavoritesResponse))
    (rg : Except Err (Option Submit.QueryData))
    (h : (∃ e, rc = .error e) ∨ (∃ e, rf = .error e) ∨ (∃ e, rg = .error e)) :
    (∃ e, Submit.aggregate rc rf rg = .error e) ∧
    ∀ out, Submit.aggregate rc rf rg ≠ .ok out := by
  have key : ∃ e, Submit.aggregate rc rf rg = .error e := by
    rcases h with ⟨e, rfl⟩ | h
    · exact ⟨e, rfl⟩
    · cases rc with
      | error e => exact ⟨e, rfl⟩
      | ok colors =>
        rcases h with ⟨e, rfl⟩ | ⟨e, rfl⟩
        · exact ⟨e, rfl⟩
        · cases rf with
          | error e' => exact ⟨e', rfl⟩
          | ok favorites => exact ⟨e, rfl⟩
  refine ⟨key, ?_⟩
  obtain ⟨e, he⟩ := key
  intro out hout
  rw [he] at hout
  exact nomatch hout

/-- Closed instantiation of `aggregation_all_or_nothing`: a network failure of
the favorites query alone aborts the aggregation. -/
theorem aggregation_all_or_nothing_witness :
    (∃ e, Submit.aggregate (.ok Example.colorsOther) (.error .network)
      (.ok (some ⟨some [Example.courseNodePlain]⟩)) = .error e) ∧
    ∀ out, Submit.aggregate (.ok Example.colorsOther) (.error .network)
      (.ok (some ⟨some [Example.courseNodePlain]⟩)) ≠ .ok out :=
  aggregation_all_or_nothing _ _ _ (Or.inr (Or.inl ⟨.network, rfl⟩))

theorem processAssignment_no_color {colors : Submit.ColorsResponse}
    {favorites : List Submit.FavoritesResponse} {course : Submit.CourseNode}
    {k : String} (hk : course.asset_string = some k)
    (hm : colors.custom_colors.lookup k = none)
    (a : Option Submit.AssignmentNode) :
    ∀ r, Submit.processAssignment colors favorites course a ≠ .ok r := by
  intro r h
  unfold Submit.processAssignment at h
  rw [exceptBind_eq_ok] at h
  obtain ⟨props, -, h⟩ := h
  rw [exceptBind_eq_ok] at h
  obtain ⟨subsConn, -, h⟩ := h
  rw [exceptBind_eq_ok] at h
  obtain ⟨subsNodes, -, h⟩ := h
  rw [exceptBind_eq_ok] at h
  obtain ⟨submitted, -, h⟩ := h
  rw [exceptBind_eq_ok] at h
  obtain ⟨types, -, h⟩ := h
  rw [exceptBind_eq_ok] at h
  obtain ⟨name, -, h⟩ := h
  rw [exceptBind_eq_ok] at h
  obtain ⟨favorite, -, h⟩ := h
  rw [exceptBind_eq_ok] at h
  obtain ⟨assetKey, hak, h⟩ := h
  rw [exceptBind_eq_ok] at h
  obtain ⟨cssColor, hcc, -⟩ := h
  rw [optToExcept_eq_ok] at hak hcc
  rw [hk] at hak
  cases hak
  rw [hm] at hcc
  exact nomatch hcc

theorem processCourse_no_color {colors : Submit.ColorsResponse}
    {favorites : List Submit.FavoritesResponse} {course : Submit.CourseNode}
    {k : String} (hk : course.asset_string = some k)
    (hm : colors.custom_colors.lookup k = none)
    (hn : course.assignments_connection.bind
      Submit.AssignmentsConnection.nodes ≠ some []) :
    ∀ out, Submit.processCourse colors favorites course ≠ .ok out := by
  intro out h
  unfold Submit.processCourse at h
  rw [exceptBind_eq_ok] at h
  obtain ⟨conn, hconn, h⟩ := h
  rw [exceptBind_eq_ok] at h
  obtain ⟨nodes, hnodes, h⟩ := h
  rw [optToExcept_eq_ok] at hconn hnodes
  have hbind : course.assignments_connection.bind
      Submit.AssignmentsConnection.nodes = some nodes := by
    rw [hconn]
    exact hnodes
  cases nodes with
  | nil => exact hn hbind
  | cons x xs =>
    have := mapME_eq_ok h x (List.mem_cons_self x xs)
    obtain ⟨y, hy⟩ := this
    exact processAssignment_no_color hk hm x y hy

/-- C4 counterexample: a concrete aggregation input in which the only anomaly
is a course asset key (`course_42`) that is absent from the color mapping; the
aggregation does not fall back to a default color but aborts with a panic. -/
theorem missing_color_panics_counterexample :
    Example.courseNodePlain.asset_string = some "course_42" ∧
    Example.colorsOther.custom_colors.lookup "course_42" = none ∧
    Submit.aggregate (.ok Example.colorsOther) (.ok [])
      (.ok (some ⟨some [Example.courseNodePlain]⟩)) = .error .panicked :=
  ⟨rfl, rfl, rfl⟩

/-- C4 amended: when a course whose node carries at least one assignment entry
(or a malformed connection) has an asset key absent from the color mapping, the
submit-flow aggregation aborts with an error; no fallback color is applied.
The fallback-to-default behaviour exists only in the download flow
(`Lib.displayColor`). -/
theorem missing_color_aborts
    (colors : Submit.ColorsResponse)
    (favorites : List Submit.FavoritesResponse) (data : Submit.QueryData)
    (courses : List Submit.CourseNode) (course : Submit.CourseNode) (k : String)
    (hall : data.all_courses = some courses) (hc : course ∈ courses)
    (hk : course.asset_string = some k)
    (hm : colors.custom_colors.lookup k = none)
    (hn : course.assignments_connection.bind
      Submit.AssignmentsConnection.nodes ≠ some []) :
    ∃ e, Submit.aggregate (.ok colors) (.ok favorites) (.ok (some data)) =
      .error e := by
  have hagg : Submit.aggregate (.ok colors) (.ok favorites) (.ok (some data)) =
      Submit.mergeAssignments colors favorites data := rfl
  rw [hagg]
  unfold Submit.mergeAssignments
  rw [hall]
  have hfail : ∀ out, Submit.processCourse colors favorites course ≠ .ok out :=
    processCourse_no_color hk hm hn
  obtain ⟨e, he⟩ :=
    mapME_error_of_mem (f := Submit.processCourse colors favorites) hc hfail
  exact ⟨e, by simp [Bind.bind, Except.bind, he]⟩

/-- Closed instantiation of `missing_color_aborts` at the counterexample
input. -/
theorem missing_color_aborts_witness :
    ∃ e, Submit.aggregate (.ok Example.colorsOther) (.ok [])
      (.ok (some ⟨some [Example.courseNodePlain]⟩)) = .error e :=
  missing_color_aborts Example.colorsOther [] ⟨some [Example.courseNodePlain]⟩
    [Example.courseNodePlain] Example.courseNodePlain "course_42"
    rfl (List.mem_singleton.mpr rfl) rfl rfl (by decide)

/-- C6 counterexample: an assignment whose first submission record has an empty
status but whose second record has the non-empty status `graded` is marked
unsubmitted by the merge, although it has at least one submission record with a
non-empty status. -/
theorem submitted_flag_counterexample :
    Example.asgNodeTwo.submissions_connection = some ⟨some Example.subsTwo⟩ ∧
    (∃ n ∈ Example.subsTwo, ∃ r, n = some r ∧
      ∃ s, r.submission_status = some s ∧ s.isEmpty = false) ∧
    Submit.aggregate (.ok ⟨[("course_42", "#abcdef")]⟩) (.ok [])
      (.ok (some ⟨some [Example.courseNodeTwo]⟩)) = .ok [Example.mergedTwo] ∧
    Example.mergedTwo.submitted = false := by
  refine ⟨rfl, ⟨some ⟨some "graded"⟩, ?_, ⟨some "graded"⟩, rfl, "graded", rfl, rfl⟩, rfl, rfl⟩
  simp [Example.subsTwo]

/-- C6 amended: during the merge an assignment is marked submitted iff its
submission list is non-empty and the status string of the FIRST record is
non-empty; records after the first are ignored, and an assignment with no
records is marked unsubmitted. The second conjunct ties the flag of every
merged assignment to this head-of-list computation. -/
theorem submitted_flag_head_only :
    (∀ (nodes : List (Option Submit.SubmissionNode)) (b : Bool),
      Submit.computeSubmitted nodes = .ok b →
      (b = true ↔ ∃ n, nodes.head? = some (some n) ∧
        ∃ s, n.submission_status = some s ∧ s.isEmpty = false)) ∧
    (∀ colors favorites course a r,
      Submit.processAssignment colors favorites course a = .ok r →
      ∃ props, a = some props ∧ ∃ nodes,
        props.submissions_connection.bind Submit.SubmissionsConnection.nodes =
          some nodes ∧
        Submit.computeSubmitted nodes = .ok r.submitted) := by
  constructor
  · intro nodes b h
    cases nodes with
    | nil =>
      have hb : b = false := by
        have := h
        unfold Submit.computeSubmitted at this
        exact (Except.ok.injEq _ _).mp this.symm
      subst hb
      simp
    | cons first rest =>
      unfold Submit.computeSubmitted at h
      rw [exceptBind_eq_ok] at h
      obtain ⟨node, hnode, h⟩ := h
      rw [exceptBind_eq_ok] at h
      obtain ⟨status, hstatus, h⟩ := h
      rw [optToExcept_eq_ok] at hnode hstatus
      have hb : b = !status.isEmpty := ((Except.ok.injEq _ _).mp h).symm
      subst hb
      subst hnode
      constructor
      · intro hs
        refine ⟨node, rfl, status, hstatus, ?_⟩
        cases hse : status.isEmpty with
        | false => rfl
        | true => rw [hse] at hs; exact nomatch hs
      · rintro ⟨n, hn, s, hss, hse⟩
        have hn' : node = n := by
          have := (Option.some.injEq _ _).mp ((List.head?_cons ▸ hn : some (some node) = some (some n)))
          exact (Option.some.injEq _ _).mp this
        subst hn'
        rw [hstatus] at hss
        have : status = s := (Option.some.injEq _ _).mp hss
        subst this
        rw [hse]
        rfl
  · intro colors favorites course a r h
    unfold Submit.processAssignment at h
    rw [exceptBind_eq_ok] at h
    obtain ⟨props, hprops, h⟩ := h
    rw [exceptBind_eq_ok] at h
    obtain ⟨subsConn, hconn, h⟩ := h
    rw [exceptBind_eq_ok] at h
    obtain ⟨subsNodes, hnodes, h⟩ := h
    rw [exceptBind_eq_ok] at h
    obtain ⟨submitted, hsub, h⟩ := h
    rw [exceptBind_eq_ok] at h
    obtain ⟨types, -, h⟩ := h
    rw [exceptBind_eq_ok] at h
    obtain ⟨name, -, h⟩ := h
    rw [exceptBind_eq_ok] at h
    obtain ⟨favorite, -, h⟩ := h
    rw [exceptBind_eq_ok] at h
    obtain ⟨assetKey, -, h⟩ := h
    rw [exceptBind_eq_ok] at h
    obtain ⟨cssColor, -, h⟩ := h
    rw [optToExcept_eq_ok] at hprops hconn hnodes
    have hr : r.submitted = submitted := by
      have := (Except.ok.injEq _ _).mp h
      rw [← this]
    refine ⟨props, hprops, subsNodes, ?_, ?_⟩
    · rw [hconn]
      exact hnodes
    · rw [hr]
      exact hsub

/-- Closed instantiation of `submitted_flag_head_only` at the two-record
submission list of the counterexample. -/
theorem submitted_flag_head_only_witness :
    (false = true ↔ ∃ n, Example.subsTwo.head? = some (some n) ∧
      ∃ s, n.submission_status = some s ∧ s.isEmpty = false) ∧
    ∃ props, some Example.asgNodeTwo = some props ∧ ∃ nodes,
      props.submissions_connection.bind Submit.SubmissionsConnection.nodes =
        some nodes ∧
      Submit.computeSubmitted nodes = .ok Example.mergedTwo.submitted :=
  ⟨submitted_flag_head_only.1 Example.subsTwo false rfl,
   submitted_flag_head_only.2 ⟨[("course_42", "#abcdef")]⟩ []
     Example.courseNodeTwo (some Example.asgNodeTwo) Example.mergedTwo rfl⟩

theorem optIntLE_destruct {u v : Option Int} (h : compare u v ≠ .gt) :
    u = none ∨ ∃ x y, u = some x ∧ v = some y ∧ x ≤ y := by
  cases u with
  | none => exact Or.inl rfl
  | some x =>
    cases v with
    | none => exact absurd rfl h
    | some y =>
      have h' : compare x y ≠ .gt := h
      exact Or.inr ⟨x, y, rfl, rfl, Batteries.LECmp.cmp_iff_le.mp h'⟩

theorem stringLE_destruct {s t : String} (h : compare s t ≠ .gt) :
    strLt s t ∨ s = t := by
  by_cases hlt : strLt s t
  · exact Or.inl hlt
  by_cases heq : s = t
  · exact Or.inr heq
  have hgt : compare s t = .gt := by
    simp [compare, compareOfLessAndEq, heq]
    exact hlt
  exact absurd hgt h

theorem assignmentLE_destruct {a b : Submit.Assignment}
    (h : leIndByCmp Submit.assignmentCmp a b) :
    (a.submitted = false ∧ b.submitted = true) ∨
    (a.submitted = b.submitted ∧
      (a.due_at = none ∨
        ∃ x y, a.due_at = some x ∧ b.due_at = some y ∧ x ≤ y)) := by
  unfold leIndByCmp Submit.assignmentCmp at h
  cases hs : a.submitted <;> cases ht : b.submitted <;> rw [hs, ht] at h
  · have h' : compare a.due_at b.due_at ≠ .gt := h
    exact Or.inr ⟨rfl, optIntLE_destruct h'⟩
  · exact Or.inl ⟨rfl, rfl⟩
  · exact absurd rfl h
  · have h' : compare a.due_at b.due_at ≠ .gt := h
    exact Or.inr ⟨rfl, optIntLE_destruct h'⟩

/-- C5 counterexample: two unsubmitted assignments of the same course, one
dated and one undated; the selector sort places the undated one FIRST, not
after the dated one, because the Rust `Option` order puts `None` before
`Some`. -/
theorem undated_sorts_first_counterexample :
    Submit.eligibleAssignments [Example.aDated, Example.aUndated]
      Example.cPlain = [Example.aUndated, Example.aDated] ∧
    Example.aDated.submitted = Example.aUndated.submitted ∧
    Example.aUndated.due_at = none ∧ Example.aDated.due_at = some 5 :=
  ⟨rfl, rfl, rfl, rfl⟩

/-- C5 amended: in every assignment candidate list presented by the selector,
unsubmitted assignments sort strictly before submitted ones; within equal
submitted status the order is ascending due date with assignments that have NO
due date sorted BEFORE all dated assignments (`None < Some`); the sort is
stable (pairs comparing equal keep their relative order) and the sorted list
is a permutation of the filtered input. -/
theorem assignment_sort_order (assignments : List Submit.Assignment)
    (course : Submit.Course) :
    (Submit.eligibleAssignments assignments course).Pairwise (fun a b =>
      (a.submitted = false ∧ b.submitted = true) ∨
      (a.submitted = b.submitted ∧
        (a.due_at = none ∨
          ∃ x y, a.due_at = some x ∧ b.due_at = some y ∧ x ≤ y))) ∧
    (∀ a b, Submit.assignmentCmp a b = .eq →
      List.Sublist [a, b] (Submit.eligibleOf assignments course) →
      List.Sublist [a, b] (Submit.eligibleAssignments assignments course)) ∧
    (Submit.eligibleAssignments assignments course).Perm
      (Submit.eligibleOf assignments course) := by
  refine ⟨?_, ?_, ?_⟩
  · have hs := List.sorted_insertionSort (leIndByCmp Submit.assignmentCmp)
      (Submit.eligibleOf assignments course)
    exact List.Pairwise.imp (fun h => assignmentLE_destruct h) hs
  · intro a b hab hsub
    apply List.pair_sublist_insertionSort ?_ hsub
    unfold leIndByCmp
    rw [hab]
    exact fun hcon => nomatch hcon
  · exact List.perm_insertionSort _ _

/-- Closed instantiation of the stability clause of `assignment_sort_order`:
two equal-comparing undated assignments keep their input order. -/
theorem assignment_sort_order_witness :
    List.Sublist [Example.aUndated, Example.aUndated2]
      (Submit.eligibleAssignments [Example.aUndated, Example.aUndated2]
        Example.cPlain) :=
  (assignment_sort_order [Example.aUndated, Example.aUndated2]
      Example.cPlain).2.1
    Example.aUndated Example.aUndated2 rfl (List.Sublist.refl _)

theorem courseLE_destruct {a b : Submit.Course}
    (h : leIndByCmp Submit.courseCmp a b) :
    (b.favorite = true → a.favorite = true) ∧
    (a.favorite = b.favorite → strLt a.name b.name ∨ a.name = b.name) := by
  unfold leIndByCmp Submit.courseCmp at h
  cases hs : a.favorite <;> cases ht : b.favorite <;> rw [hs, ht] at h
  · have h' : compare a.name b.name ≠ .gt := h
    exact ⟨fun hbt => hbt, fun _ => stringLE_destruct h'⟩
  · exact absurd rfl h
  · exact ⟨fun _ => rfl, fun heq => nomatch heq⟩
  · have h' : compare a.name b.name ≠ .gt := h
    exact ⟨fun _ => rfl, fun _ => stringLE_destruct h'⟩

theorem libCourseLE_destruct {a b : Lib.Course}
    (h : leIndByCmp Lib.libCourseCmp a b) :
    (b.is_favorite = true → a.is_favorite = true) ∧
    (a.is_favorite = b.is_favorite → a.created_at ≤ b.created_at) := by
  unfold leIndByCmp Lib.libCourseCmp at h
  cases hs : a.is_favorite <;> cases ht : b.is_favorite <;> rw [hs, ht] at h
  · have h' : compare a.created_at b.created_at ≠ .gt := h
    exact ⟨fun hbt => hbt, fun _ => Batteries.LECmp.cmp_iff_le.mp h'⟩
  · exact absurd rfl h
  · exact ⟨fun _ => rfl, fun heq => nomatch heq⟩
  · have h' : compare a.created_at b.created_at ≠ .gt := h
    exact ⟨fun _ => rfl, fun _ => Batteries.LECmp.cmp_iff_le.mp h'⟩

/-- C7: in every course candidate list presented by a selector, favorite
courses sort strictly before non-favorite courses; within equal favorite
status the submit-flow list (`coursesOf`) is ascending by name and the
download-flow list (`sortLibCourses`) is ascending by creation time; both
sorts are stable (equal-comparing pairs keep their relative order) and are
permutations of their inputs. -/
theorem course_sort_order :
    (∀ assignments : List Submit.Assignment,
      (Submit.coursesOf assignments).Pairwise (fun a b =>
        (b.favorite = true → a.favorite = true) ∧
        (a.favorite = b.favorite → strLt a.name b.name ∨ a.name = b.name)) ∧
      (∀ a b, Submit.courseCmp a b = .eq →
        List.Sublist [a, b] (assignments.map (·.course)).dedup →
        List.Sublist [a, b] (Submit.coursesOf assignments)) ∧
      (Submit.coursesOf assignments).Perm
        (assignments.map (·.course)).dedup) ∧
    (∀ l : List Lib.Course,
      (Lib.sortLibCourses l).Pairwise (fun a b =>
        (b.is_favorite = true → a.is_favorite = true) ∧
        (a.is_favorite = b.is_favorite → a.created_at ≤ b.created_at)) ∧
      (∀ a b, Lib.libCourseCmp a b = .eq → List.Sublist [a, b] l →
        List.Sublist [a, b] (Lib.sortLibCourses l)) ∧
      (Lib.sortLibCourses l).Perm l) := by
  constructor
  · intro assignments
    refine ⟨?_, ?_, ?_⟩
    · have hs := List.sorted_insertionSort (leIndByCmp Submit.courseCmp)
        (assignments.map (·.course)).dedup
      exact List.Pairwise.imp (fun h => courseLE_destruct h) hs
    · intro a b hab hsub
      apply List.pair_sublist_insertionSort ?_ hsub
      unfold leIndByCmp
      rw [hab]
      exact fun hcon => nomatch hcon
    · exact List.perm_insertionSort _ _
  · intro l
    refine ⟨?_, ?_, ?_⟩
    · have hs := List.sorted_insertionSort (leIndByCmp Lib.libCourseCmp) l
      exact List.Pairwise.imp (fun h => libCourseLE_destruct h) hs
    · intro a b hab hsub
      apply List.pair_sublist_insertionSort ?_ hsub
      unfold leIndByCmp
      rw [hab]
      exact fun hcon => nomatch hcon
    · exact List.perm_insertionSort _ _

/-- Closed instantiation of the stability clause of `course_sort_order`: two
equal-comparing download-flow courses keep their input order. -/
theorem course_sort_order_witness :
    List.Sublist [Example.lc1, Example.lc2]
      (Lib.sortLibCourses [Example.lc1, Example.lc2]) :=
  (course_sort_order.2 [Example.lc1, Example.lc2]).2.1 Example.lc1 Example.lc2
    rfl (List.Sublist.refl _)

/-- C10: the course candidate list offered for interactive selection in the
submit flow contains each distinct course value at most once (distinctness by
equality of the full value: name, id, favorite flag and color), and a course
appears in it iff at least one assignment of the merged aggregation carries
it. -/
theorem course_candidates_distinct (assignments : List Submit.Assignment) :
    (Submit.coursesOf assignments).Nodup ∧
    ∀ c : Submit.Course,
      c ∈ Submit.coursesOf assignments ↔ ∃ a ∈ assignments, a.course = c := by
  constructor
  · have hperm : (Submit.coursesOf assignments).Perm
        (assignments.map (·.course)).dedup := List.perm_insertionSort _ _
    exact hperm.nodup_iff.mpr (List.nodup_dedup _)
  · intro c
    have hmem : c ∈ Submit.coursesOf assignments ↔
        c ∈ (assignments.map (·.course)).dedup :=
      List.mem_insertionSort (leIndByCmp Submit.courseCmp)
    rw [hmem, List.mem_dedup, List.mem_map]

/-- Closed instantiation of `course_candidates_distinct` at a one-assignment
aggregation. -/
theorem course_candidates_distinct_witness :
    (Submit.coursesOf [Example.aDated]).Nodup ∧
    ∀ c : Submit.Course, c ∈ Submit.coursesOf [Example.aDated] ↔
      ∃ a ∈ [Example.aDated], a.course = c :=
  course_candidates_distinct [Example.aDated]

theorem collectUploaded_eq_ok {rs : List (Except Err Submit.UploadResponse)}
    {us : List Submit.UploadResponse}
    (h : Submit.collectUploaded rs = .ok us) : rs = us.map Except.ok := by
  induction rs generalizing us with
  | nil =>
    have hus : us = [] := by
      unfold Submit.collectUploaded at h
      exact ((Except.ok.injEq _ _).mp h).symm
    rw [hus]
    rfl
  | cons a rest ih =>
    cases a with
    | error e => exact nomatch h
    | ok r =>
      rw [show Submit.collectUploaded (Except.ok r :: rest) =
        (Submit.collectUploaded rest).map (r :: ·) from rfl] at h
      cases hrest : Submit.collectUploaded rest with
      | error e => rw [hrest] at h; exact nomatch h
      | ok us' =>
        rw [hrest] at h
        simp only [Except.map] at h
        have hus : us = r :: us' := ((Except.ok.injEq _ _).mp h).symm
        subst hus
        simp [ih hrest]

theorem collectUploaded_error_of_mem
    {rs : List (Except Err Submit.UploadResponse)}
    (h : ∃ x ∈ rs, ∃ e, x = .error e) :
    ∃ e, Submit.collectUploaded rs = .error e := by
  induction rs with
  | nil => obtain ⟨x, hx, -⟩ := h; cases hx
  | cons a rest ih =>
    cases a with
    | error e => exact ⟨e, rfl⟩
    | ok r =>
      obtain ⟨x, hx, e, hxe⟩ := h
      rcases List.mem_cons.mp hx with rfl | hmem
      · exact nomatch hxe
      · obtain ⟨e', he'⟩ := ih ⟨x, hmem, e, hxe⟩
        refine ⟨e', ?_⟩
        rw [show Submit.collectUploaded (Except.ok r :: rest) =
          (Submit.collectUploaded rest).map (r :: ·) from rfl, he']
        rfl

/-- C1: the finalize call is issued only when every input file's upload
pipeline has produced an uploaded file, and it carries exactly one repeated
`submission[file_ids][]` query parameter per input file (equal cardinality,
in input order) plus the single `submission[submission_type]=online_upload`
parameter, addressed to the selected course's and assignment's submissions
endpoint. -/
theorem finalize_request_shape (base : String) (course : Submit.Course)
    (assignment : Submit.Assignment) (files : List String)
    (net : String → Submit.FileNet) (req : Submit.FinalizeRequest)
    (h : Submit.submitTail base course assignment files net = .ok req) :
    (∃ rs : List Submit.UploadResponse,
      files.map (fun f => Submit.upload_file (net f)) = rs.map Except.ok ∧
      req.queryParams =
        rs.map (fun r => ("submission[file_ids][]", toString r.id)) ++
          [("submission[submission_type]", "online_upload")]) ∧
    req.queryParams.countP (fun p => p.1 == "submission[file_ids][]") =
      files.length ∧
    req.queryParams.countP (fun p => p.1 == "submission[submission_type]") =
      1 ∧
    req.url = base ++ "api/v1/courses/" ++ course.id ++ "/assignments/" ++
      assignment.id ++ "/submissions" := by
  unfold Submit.submitTail at h
  rw [exceptBind_eq_ok] at h
  obtain ⟨us, hus, hreq⟩ := h
  have hrs := collectUploaded_eq_ok hus
  have hlen : files.length = us.length := by
    have := congrArg List.length hrs
    simpa using this
  have hreq' : req =
      { url := base ++ "api/v1/courses/" ++ course.id ++ "/assignments/" ++
          assignment.id ++ "/submissions",
        queryParams :=
          us.map (fun f => ("submission[file_ids][]", toString f.id)) ++
            [("submission[submission_type]", "online_upload")] } :=
    ((Except.ok.injEq _ _).mp hreq).symm
  subst hreq'
  refine ⟨⟨us, hrs, rfl⟩, ?_, ?_, rfl⟩
  · rw [List.countP_append]
    have h1 : (us.map
        (fun f => ("submission[file_ids][]", toString f.id))).countP
        (fun p => p.1 == "submission[file_ids][]") =
        (us.map (fun f => ("submission[file_ids][]", toString f.id))).length := by
      rw [List.countP_eq_length]
      intro p hp
      obtain ⟨r, -, rfl⟩ := List.mem_map.mp hp
      rfl
    rw [h1]
    simp [hlen]
  · rw [List.countP_append]
    have h0 : (us.map
        (fun f => ("submission[file_ids][]", toString f.id))).countP
        (fun p => p.1 == "submission[submission_type]") = 0 := by
      rw [List.countP_eq_zero]
      intro p hp
      obtain ⟨r, -, rfl⟩ := List.mem_map.mp hp
      exact fun hcon => nomatch hcon
    rw [h0]
    rfl

/-- Closed instantiation of `finalize_request_shape`: two files, both upload
pipelines succeed, and the finalize request carries two file-id parameters
and one submission-type parameter. -/
theorem finalize_request_shape_witness :
    (∃ rs : List Submit.UploadResponse,
      (["a.txt", "c.txt"] : List String).map
          (fun f => Submit.upload_file (Example.allOkNet f)) =
        rs.map Except.ok ∧
      Example.reqTwo.queryParams =
        rs.map (fun r => ("submission[file_ids][]", toString r.id)) ++
          [("submission[submission_type]", "online_upload")]) ∧
    Example.reqTwo.queryParams.countP
      (fun p => p.1 == "submission[file_ids][]") =
      (["a.txt", "c.txt"] : List String).length ∧
    Example.reqTwo.queryParams.countP
      (fun p => p.1 == "submission[submission_type]") = 1 ∧
    Example.reqTwo.url = "https://base/" ++ "api/v1/courses/" ++
      Example.courseSel.id ++ "/assignments/" ++ Example.asgSel.id ++
      "/submissions" :=
  finalize_request_shape "https://base/" Example.courseSel Example.asgSel
    ["a.txt", "c.txt"] Example.allOkNet Example.reqTwo rfl

/-- C2: whenever at least one file's upload pipeline fails at any of its three
stages, the finalize submission call is never issued, regardless of how many
other pipelines succeeded, and the failure surfaces as exactly one fatal
error. -/
theorem failed_upload_blocks_finalize (base : String) (course : Submit.Course)
    (assignment : Submit.Assignment) (files : List String)
    (net : String → Submit.FileNet)
    (h : ∃ f ∈ files, ∃ e, Submit.upload_file (net f) = .error e) :
    (∃ e, Submit.submitTail base course assignment files net = .error e) ∧
    ∀ req, Submit.submitTail base course assignment files net ≠ .ok req := by
  obtain ⟨f, hf, e, hfe⟩ := h
  have hmem : Submit.upload_file (net f) ∈
      files.map (fun g => Submit.upload_file (net g)) :=
    List.mem_map.mpr ⟨f, hf, rfl⟩
  obtain ⟨e', he'⟩ := collectUploaded_error_of_mem
    ⟨Submit.upload_file (net f), hmem, e, hfe⟩
  have key : Submit.submitTail base course assignment files net = .error e' := by
    unfold Submit.submitTail
    rw [he']
    rfl
  exact ⟨⟨e', key⟩, fun req hreq => nomatch key.symm.trans hreq⟩

/-- Closed instantiation of `failed_upload_blocks_finalize`, the end-to-end
scenario B: the stage-2 response for file 2 of 2 carries no location while
file 1 succeeds; no finalize request is issued. -/
theorem failed_upload_blocks_finalize_witness :
    (∃ e, Submit.submitTail "https://base/" Example.courseSel Example.asgSel
      ["a.txt", "b.txt"] Example.mixedNet = .error e) ∧
    ∀ req, Submit.submitTail "https://base/" Example.courseSel Example.asgSel
      ["a.txt", "b.txt"] Example.mixedNet ≠ .ok req :=
  failed_upload_blocks_finalize "https://base/" Example.courseSel
    Example.asgSel ["a.txt", "b.txt"] Example.mixedNet
    ⟨"b.txt", by simp, .panicked, rfl⟩

/-- C8 counterexample: with the explicit flag requesting course 1, the
environment override course 2, and the parseable URL course 3, the code
resolves course 2; the explicitly supplied id does NOT win over the
environment override or the parsed URL. -/
theorem explicit_flag_overridden_counterexample :
    Example.rinpAll.flagCourse = some 1 ∧
    Download.parseCourseUrl "https://h.edu/courses/3" =
      some ("https://h.edu", 3) ∧
    Download.resolveCourse Example.rinpAll = .ok ("https://h.edu", some 2) ∧
    ((some 2 : Option Nat) ≠ some 1 ∧ (some 2 : Option Nat) ≠ some 3) :=
  ⟨rfl, rfl, rfl, by decide⟩

/-- C8 amended: the precedence the code implements is environment override >
parsed URL > explicit flag > interactive prompt. The environment course id,
when set and parseable, determines the resolved id whenever resolution
succeeds; with no environment id, a parseable URL (itself taken from the
CANVAS_URL environment variable in preference to the url flag) overrides the
explicit flag; the explicit flag survives only when no URL source is present
(a `none` result then falls through to interactive selection). -/
theorem resolve_precedence :
    (∀ (inp : Download.ResolveInput) (s : String) (n : Nat) (b : String)
        (c : Option Nat),
      inp.envCourseId = some s → parseNat32 s = some n →
      Download.resolveCourse inp = .ok (b, c) → c = some n) ∧
    (∀ (inp : Download.ResolveInput) (u bu : String) (nu : Nat),
      inp.envCourseId = none → inp.envUrl = some u →
      Download.parseCourseUrl u = some (bu, nu) → nu < 2 ^ 32 →
      Download.resolveCourse inp = .ok (bu, some nu)) ∧
    (∀ inp : Download.ResolveInput,
      inp.envCourseId = none → inp.envUrl = none → inp.flagUrl = none →
      Download.resolveCourse inp = .ok (inp.baseUrl, inp.flagCourse)) := by
  refine ⟨?_, ?_, ?_⟩
  · intro inp s n b c hs hp h
    unfold Download.resolveCourse at h
    rw [exceptBind_eq_ok] at h
    obtain ⟨step1, -, h⟩ := h
    rw [exceptBind_eq_ok] at h
    obtain ⟨c2, hc2, hfin⟩ := h
    unfold Download.envIdStage at hc2
    simp only [hs, hp] at hc2
    have hc2' : c2 = some n := ((Except.ok.injEq _ _).mp hc2).symm
    have hfin' : c = c2 := by
      have hp2 := (Except.ok.injEq _ _).mp hfin
      exact (congrArg Prod.snd hp2).symm
    rw [hfin', hc2']
  · intro inp u bu nu hs hu hp hlt
    unfold Download.resolveCourse Download.urlStage Download.envIdStage
    simp only [hs, hu, hp, if_pos hlt]
    rfl
  · intro inp hs hu hf
    unfold Download.resolveCourse Download.urlStage Download.envIdStage
    simp only [hs, hu, hf]
    rfl

/-- Closed instantiation of `resolve_precedence`: its three clauses applied to
the three concrete inputs that differ only in which sources are present. -/
theorem resolve_precedence_witness :
    (some 2 : Option Nat) = some 2 ∧
    Download.resolveCourse Example.rinpNoEnvId =
      .ok ("https://h.edu", some 3) ∧
    Download.resolveCourse Example.rinpFlagOnly =
      .ok (Example.rinpFlagOnly.baseUrl, Example.rinpFlagOnly.flagCourse) :=
  ⟨resolve_precedence.1 Example.rinpAll "2" 2 "https://h.edu" (some 2)
      rfl rfl rfl,
   resolve_precedence.2.1 Example.rinpNoEnvId "https://h.edu/courses/3"
      "https://h.edu" 3 rfl rfl rfl (by decide),
   resolve_precedence.2.2 Example.rinpFlagOnly rfl rfl rfl⟩

theorem isSubseqOf_iff_sublist {l t : List Char} :
    Fuzzy.isSubseqOf l t = true ↔ List.Sublist l t := by
  induction t generalizing l with
  | nil =>
    cases l with
    | nil => simp [Fuzzy.isSubseqOf]
    | cons a as => simp [Fuzzy.isSubseqOf]
  | cons b bs ih =>
    cases l with
    | nil => simp [Fuzzy.isSubseqOf]
    | cons a as =>
      by_cases hab : a = b
      · subst hab
        rw [show Fuzzy.isSubseqOf (a :: as) (a :: bs) =
          Fuzzy.isSubseqOf as bs from by simp [Fuzzy.isSubseqOf]]
        rw [ih]
        constructor
        · exact fun h => h.cons₂ a
        · exact fun h => List.cons_sublist_cons.mp h
      · rw [show Fuzzy.isSubseqOf (a :: as) (b :: bs) =
          Fuzzy.isSubseqOf (a :: as) bs from by simp [Fuzzy.isSubseqOf, hab]]
        rw [ih]
        constructor
        · exact fun h => h.cons b
        · intro h
          cases h with
          | cons _ h' => exact h'
          | cons₂ => exact absurd rfl hab

/-- C9: the interactive fuzzy filter is monotonic: every candidate matching an
extension of a query also matches the query itself, so appending characters
never enlarges the matched candidate set; and matching is case-insensitive,
order-preserving subsequence matching, not exact substring matching. -/
theorem fuzzy_filter_monotone :
    (∀ (choices : List String) (q ext c : String),
      c ∈ choices.filter (fun s => Fuzzy.fuzzy_match s (q ++ ext)) →
      c ∈ choices.filter (fun s => Fuzzy.fuzzy_match s q)) ∧
    (∀ c p : String, Fuzzy.fuzzy_match c p = true ↔
      List.Sublist (p.data.map Char.toLower) (c.data.map Char.toLower)) := by
  have hchar : ∀ c p : String, Fuzzy.fuzzy_match c p = true ↔
      List.Sublist (p.data.map Char.toLower) (c.data.map Char.toLower) :=
    fun c p => isSubseqOf_iff_sublist
  refine ⟨?_, hchar⟩
  intro choices q ext c hmem
  rw [List.mem_filter] at hmem ⊢
  obtain ⟨hc, hmatch⟩ := hmem
  refine ⟨hc, ?_⟩
  rw [hchar] at hmatch ⊢
  have hdata : (q ++ ext).data = q.data ++ ext.data := by
    cases q
    cases ext
    rfl
  rw [hdata, List.map_append] at hmatch
  exact List.Sublist.trans (List.sublist_append_left _ _) hmatch

/-- Closed instantiation of `fuzzy_filter_monotone`: a label matching the
extended query `hw` + `3` also matches `hw` alone (note `hw3` is not a
substring of the label, only a case-insensitive subsequence). -/
theorem fuzzy_filter_monotone_witness :
    "Homework 3" ∈ (["Homework 3"] : List String).filter
      (fun s => Fuzzy.fuzzy_match s "hw") :=
  fuzzy_filter_monotone.1 ["Homework 3"] "hw" "3" "Homework 3" (by decide)
